import Mathlib

/-!
Verification development for the aws-asg-roller reconciliation engine.

The definitions below are a shallow embedding of the Go sources:
AWS SDK pointer fields become `Option` values, `int64` scalars become `Int`,
maps become functions into `Option`, and every cloud / orchestrator call an
embedded function performs is recorded in an explicit trace of `CloudCall`
events.  Service outcomes (success or an error string) are supplied by
oracle fields so that whole executions of one reconcile tick are pure
functions of their inputs.  Log statements of the source are not modelled.
-/

namespace AsgRoller

/-- String constant `healthy` from rolling.go. -/
def healthy : String := "Healthy"

/-- Embeds autoscaling.LaunchTemplateSpecification: all three fields are
string pointers in the SDK, hence `Option String` here. -/
structure LaunchTemplateSpec where
  launchTemplateId : Option String
  launchTemplateName : Option String
  version : Option String
deriving Repr, DecidableEq

/-- Embeds ec2.LaunchTemplate restricted to the fields the roller reads:
identity plus the published latest and default integer version numbers.
The version-number pointers are modelled as already dereferenced integers,
matching every call site (groupInstances dereferences them unconditionally). -/
structure LaunchTemplate where
  launchTemplateId : Option String
  launchTemplateName : Option String
  latestVersionNumber : Int
  defaultVersionNumber : Int
deriving Repr, DecidableEq

/-- Embeds autoscaling.Instance restricted to the fields the roller reads. -/
structure Instance where
  instanceId : String
  healthStatus : String
  launchConfigurationName : Option String
  launchTemplate : Option LaunchTemplateSpec
deriving Repr, DecidableEq

/-- Embeds autoscaling.Group restricted to the fields the roller reads.
`mixedInstancesPolicyLT` collapses the MixedInstancesPolicy pointer chain
(policy and its LaunchTemplateSpecification): it is `some` exactly when both
pointers are non-nil in the Go value. -/
structure Group where
  autoScalingGroupName : String
  desiredCapacity : Int
  maxSize : Int
  instances : List Instance
  launchConfigurationName : Option String
  launchTemplate : Option LaunchTemplateSpec
  mixedInstancesPolicyLT : Option LaunchTemplateSpec
deriving Repr, DecidableEq

/-- Embeds aws.StringValue: dereference a string pointer, "" when nil. -/
def stringValue : Option String → String
  | none => ""
  | some s => s

/-- Resolution of one version selector against the target template, as done
by the two switch statements inside compareLaunchTemplateVersions: the
sentinels are replaced by the decimal rendering of the template's published
number, anything else is kept verbatim. -/
def resolveVersion (targetTemplate : LaunchTemplate) (v : String) : String :=
  if v = "$Default" then toString targetTemplate.defaultVersionNumber
  else if v = "$Latest" then toString targetTemplate.latestVersionNumber
  else v

/-- Embeds compareLaunchTemplateVersions from rolling.go: nil handling for
the two specification pointers and their version pointers, then sentinel
resolution and string equality. -/
def compareLaunchTemplateVersions (targetTemplate : LaunchTemplate) :
    Option LaunchTemplateSpec → Option LaunchTemplateSpec → Bool
  | none, none => true
  | none, some _ => false
  | some _, none => false
  | some lt1, some lt2 =>
    match lt1.version, lt2.version with
    | none, none => true
    | none, some _ => false
    | some _, none => false
    | some v1, some v2 =>
      resolveVersion targetTemplate v1 = resolveVersion targetTemplate v2

/-- Embeds mapInstancesIds from rolling.go. -/
def mapInstancesIds (instances : List Instance) : List String :=
  instances.map (·.instanceId)

/-- Oracle for the EC2 DescribeLaunchTemplates API: lookup of a launch
template by id or by name.  `none` models the empty DescribeLaunchTemplates
result (awsGetLaunchTemplate then returns nil without error); transport
errors of the call are not modelled. -/
structure Ec2Api where
  templatesById : String → Option LaunchTemplate
  templatesByName : String → Option LaunchTemplate

/-- Embeds awsGetLaunchTemplateByID from aws.go. -/
def awsGetLaunchTemplateByID (svc : Ec2Api) (id : String) : Option LaunchTemplate :=
  svc.templatesById id

/-- Embeds awsGetLaunchTemplateByName from aws.go. -/
def awsGetLaunchTemplateByName (svc : Ec2Api) (name : String) : Option LaunchTemplate :=
  svc.templatesByName name

/-- Classification of one instance in the launch-template branch of
groupInstances: the four-armed switch over the instance, in source order
(no template at all, mismatched name, mismatched id, mismatched version);
`true` means the instance joins the new list. -/
def isNewByTemplate (targetTemplate : LaunchTemplate) (targetLt : LaunchTemplateSpec)
    (i : Instance) : Bool :=
  match i.launchTemplate with
  | none => false
  | some ilt =>
    if stringValue ilt.launchTemplateName ≠ stringValue targetLt.launchTemplateName then false
    else if stringValue ilt.launchTemplateId ≠ stringValue targetLt.launchTemplateId then false
    else compareLaunchTemplateVersions targetTemplate (some targetLt) (some ilt)

/-- Classification of one instance in the launch-configuration branch of
groupInstances: new iff its configuration name pointer is non-nil and its
value equals the group's target configuration name. -/
def isNewByConfig (targetLc : String) (i : Instance) : Bool :=
  match i.launchConfigurationName with
  | some n => n = targetLc
  | none => false

/-- Resolution of the group's target launch-template specification, from the
head of groupInstances: the group's own launch template, falling back to the
mixed-instances-policy template. -/
def targetLtOf (asg : Group) : Option LaunchTemplateSpec :=
  match asg.launchTemplate with
  | some lt => some lt
  | none => asg.mixedInstancesPolicyLT

/-- Lookup of the target launch template inside groupInstances: by id when
the specification carries a non-empty id, else by name, else the
invalid-launch-template error. -/
def resolveTargetTemplate (ec2Svc : Ec2Api) (asg : Group) (targetLt : LaunchTemplateSpec) :
    Except String (Option LaunchTemplate) :=
  if stringValue targetLt.launchTemplateId ≠ "" then
    .ok (awsGetLaunchTemplateByID ec2Svc (stringValue targetLt.launchTemplateId))
  else if stringValue targetLt.launchTemplateName ≠ "" then
    .ok (awsGetLaunchTemplateByName ec2Svc (stringValue targetLt.launchTemplateName))
  else
    .error ("AutoScaling Group " ++ asg.autoScalingGroupName ++ " had invalid Launch Template")

/-- Embeds groupInstances from rolling.go: splits the group's members into
(old, new), preferring the launch-template comparison when a target template
specification exists, else comparing launch-configuration names, else
failing.  Both output lists preserve the member order of the group, exactly
as the Go appends do. -/
def groupInstances (ec2Svc : Ec2Api) (asg : Group) :
    Except String (List Instance × List Instance) :=
  match targetLtOf asg with
  | some targetLt =>
    match resolveTargetTemplate ec2Svc asg targetLt with
    | .error e => .error e
    | .ok none => .error "no template found"
    | .ok (some targetTemplate) =>
      .ok (asg.instances.filter (fun i => ¬ isNewByTemplate targetTemplate targetLt i),
           asg.instances.filter (fun i => isNewByTemplate targetTemplate targetLt i))
  | none =>
    match asg.launchConfigurationName with
    | some targetLc =>
      .ok (asg.instances.filter (fun i => ¬ isNewByConfig targetLc i),
           asg.instances.filter (fun i => isNewByConfig targetLc i))
    | none =>
      .error ("[" ++ asg.autoScalingGroupName ++
        "] both target launch configuration and launch template are nil")

/-- Trace event for one external call a reconcile tick performs.  Every
embedded function returns, besides its value, the list of such events it
raised, in execution order. -/
inductive CloudCall where
  | setDesiredCapacity (asgName : String) (count : Int)
  | updateMaxSize (asgName : String) (count : Int)
  | terminateInstance (id : String)
  | setScaleDownDisabled (hostnames : List String)
  | removeScaleDownDisabled (hostnames : List String)
  | prepareTermination (hostnames : List String) (ids : List String)
deriving Repr, DecidableEq

/-- Oracle for the optional readiness handler (the kubernetesReadiness
implementation): outcomes of getUnreadyCount and prepareTermination. -/
structure ReadinessHandler where
  getUnreadyCount : List String → List String → Except String Nat
  prepareTermination : List String → List String → Bool → Bool → Except String Unit

/-- Embeds calculateAdjustment from rolling.go.  The pair result is the Go
(newDesired, terminateID) with "" for no candidate; an error replaces both,
matching the caller which reads them only when err is nil.  The second
component of the result lists the readiness-handler calls performed
(the setScaleDownDisabledAnnotation call, whose error is only logged, and
the prepareTermination call). -/
def calculateAdjustment (asg : Group) (ec2Svc : Ec2Api)
    (hostnameMap : String → String) (readinessHandler : Option ReadinessHandler)
    (originalDesired : Int) (drain drainForce : Bool) :
    Except String (Int × String) × List CloudCall :=
  let desired := asg.desiredCapacity
  match groupInstances ec2Svc asg with
  | .error e => (.error ("unable to group instances into new and old: " ++ e), [])
  | .ok (oldInstances, newInstances) =>
    match oldInstances with
    | [] => (.ok (originalDesired, ""), [])
    | oldFirst :: _ =>
      if originalDesired = desired then
        (.ok (originalDesired + 1, ""), [])
      else
        let readyCount := (asg.instances.filter (fun i => i.healthStatus = healthy)).length
        if (readyCount : Int) < originalDesired + 1 then
          (.ok (desired, ""), [])
        else
          let unReadyCount := (newInstances.filter (fun i => i.healthStatus ≠ healthy)).length
          if 0 < unReadyCount then
            (.ok (desired, ""), [])
          else
            let candidatePhase : Except String (Int × String) × List CloudCall :=
              let candidate := oldFirst.instanceId
              match readinessHandler with
              | some h =>
                let hostname := hostnameMap candidate
                let ev := CloudCall.prepareTermination [hostname] [candidate]
                match h.prepareTermination [hostname] [candidate] drain drainForce with
                | .error e =>
                  (.error ("unexpected error readiness handler terminating node " ++
                    hostname ++ ": " ++ e), [ev])
                | .ok _ => (.ok (desired, candidate), [ev])
              | none => (.ok (desired, candidate), [])
            match readinessHandler with
            | some h =>
              let ids := mapInstancesIds newInstances
              let hostnames := ids.map hostnameMap
              let ev := CloudCall.setScaleDownDisabled hostnames
              match h.getUnreadyCount hostnames ids with
              | .error e =>
                (.error ("error getting readiness new node status: " ++ e), [ev])
              | .ok n =>
                if 0 < n then (.ok (desired, ""), [ev])
                else (candidatePhase.1, ev :: candidatePhase.2)
            | none => candidatePhase

/-- Oracle for the AutoScaling mutation API: each field gives the outcome of
one call (`none` = success, `some e` = the AWS error rendered as a string). -/
structure AsgService where
  setDesiredCapacityResult : String → Int → Option String
  updateAutoScalingGroupResult : String → Int → Option String
  terminateInstanceResult : String → Option String

/-- Embeds setAsgMax from aws.go: issues the UpdateAutoScalingGroup call
(recorded in the trace whether or not the service reports an error). -/
def setAsgMax (svc : AsgService) (asg : Group) (count : Int) :
    Except String Unit × List CloudCall :=
  let ev := CloudCall.updateMaxSize asg.autoScalingGroupName count
  match svc.updateAutoScalingGroupResult asg.autoScalingGroupName count with
  | none => (.ok (), [ev])
  | some e =>
    (.error ("unable to increase ASG " ++ asg.autoScalingGroupName ++ " max size to " ++
      toString count ++ " - " ++ e), [ev])

/-- Issue of the SetDesiredCapacity call at the end of setAsgDesired, with
the error mapping of the source. -/
def setDesiredCapacityCall (svc : AsgService) (asg : Group) (count : Int) :
    Except String Unit × List CloudCall :=
  let ev := CloudCall.setDesiredCapacity asg.autoScalingGroupName count
  match svc.setDesiredCapacityResult asg.autoScalingGroupName count with
  | none => (.ok (), [ev])
  | some e =>
    (.error ("unable to increase ASG " ++ asg.autoScalingGroupName ++ " desired count to " ++
      toString count ++ " - " ++ e), [ev])

/-- Embeds setAsgDesired from aws.go: when the requested count exceeds the
group's max size, either first raise the max (when permitted) or fail with a
user-visible error before any cloud call; then issue SetDesiredCapacity. -/
def setAsgDesired (svc : AsgService) (asg : Group) (count : Int) (canIncreaseMax : Bool) :
    Except String Unit × List CloudCall :=
  if asg.maxSize < count then
    if canIncreaseMax then
      match setAsgMax svc asg count with
      | (.error e, tr) => (.error e, tr)
      | (.ok _, tr) =>
        let (r, tr2) := setDesiredCapacityCall svc asg count
        (r, tr ++ tr2)
    else
      (.error ("unable to increase ASG " ++ asg.autoScalingGroupName ++ " desired size to " ++
        toString count ++ " as greater than max size " ++ toString asg.maxSize), [])
  else
    setDesiredCapacityCall svc asg count

/-- Embeds awsTerminateNode from aws.go: issues the
TerminateInstanceInAutoScalingGroup call, never decrementing desired. -/
def awsTerminateNode (svc : AsgService) (id : String) :
    Except String Unit × List CloudCall :=
  let ev := CloudCall.terminateInstance id
  match svc.terminateInstanceResult id with
  | none => (.ok (), [ev])
  | some e => (.error ("error terminating old instance: " ++ e), [ev])

/-- Result of one DescribeTags lookup for the OriginalDesired tag of a
group: the tag is absent, carries a parsable integer, or is unparsable. -/
inductive TagRead where
  | absent
  | value (v : Int)
  | unparsable
deriving Repr, DecidableEq

/-- Process state threaded through a tick: the in-memory originalDesired
map and the cloud-side OriginalDesired tags, both keyed by group name. -/
structure RollerState where
  origMap : String → Option Int
  tagStore : String → TagRead

/-- Read of the in-memory map as Go does it: a missing key yields the int64
zero value. -/
def origGet (st : RollerState) (asgName : String) : Int :=
  (st.origMap asgName).getD 0

/-- Update of the in-memory originalDesired map. -/
def setOrig (st : RollerState) (asgName : String) (v : Int) : RollerState :=
  { st with origMap := fun n => if n = asgName then some v else st.origMap n }

/-- Embeds getOriginalDesiredTag from originaldesired.go: -1 when the tag is
absent, its parsed value when parsable, an error when present but
unparsable.  Transport errors of DescribeTags are not modelled. -/
def getOriginalDesiredTag (st : RollerState) (asgName : String) : Except String Int :=
  match st.tagStore asgName with
  | .absent => .ok (-1)
  | .value v => .ok v
  | .unparsable => .error ("unable to read tag for ASG " ++ asgName)

/-- Embeds setOriginalDesiredTag from originaldesired.go: records the
group's current desired capacity under the OriginalDesired tag.  The
CreateOrUpdateTags call is modelled as always succeeding. -/
def setOriginalDesiredTag (st : RollerState) (asgName : String) (asg : Group) : RollerState :=
  { st with tagStore := fun n =>
      if n = asgName then .value asg.desiredCapacity else st.tagStore n }

/-- Embeds populateOriginalDesired from originaldesired.go: for every
described group, when tag persistence is on, adopt the tag value when it is
present and nonnegative, otherwise guess from the group's current desired
capacity (writing the tag back when persistence is on).  The loop carries no
check of the in-memory map; it runs its body for every group on every call.
On a tag-read error the loop stops, keeping the updates made so far. -/
def populateOriginalDesired (storeOriginalDesiredOnTag : Bool) :
    List Group → RollerState → Option String × RollerState
  | [], st => (none, st)
  | asg :: rest, st =>
    let asgName := asg.autoScalingGroupName
    if storeOriginalDesiredOnTag then
      match getOriginalDesiredTag st asgName with
      | .error e => (some e, st)
      | .ok tagOriginalDesired =>
        if 0 ≤ tagOriginalDesired then
          populateOriginalDesired storeOriginalDesiredOnTag rest
            (setOrig st asgName tagOriginalDesired)
        else
          populateOriginalDesired storeOriginalDesiredOnTag rest
            (setOriginalDesiredTag (setOrig st asgName asg.desiredCapacity) asgName asg)
    else
      populateOriginalDesired storeOriginalDesiredOnTag rest
        (setOrig st asgName asg.desiredCapacity)

/-- Environment of one adjust tick: the DescribeAutoScalingGroups result,
the private-DNS resolution of awsGetHostnames (modelled as a total lookup),
the EC2 template lookups, the AutoScaling mutation outcomes and the
optional readiness handler. -/
structure AdjustEnv where
  describeGroups : List String → Except String (List Group)
  hostnameOf : String → String
  ec2 : Ec2Api
  asgSvc : AsgService
  readinessHandler : Option ReadinessHandler

/-- Embeds ensureNoScaleDownDisabledMark from rolling.go as the trace
event it raises: hostnames of the given ids are resolved and passed to
removeScaleDownDisabledAnnotation (whose own error is only logged). -/
def ensureNoScaleDownDisabledMark (env : AdjustEnv) (ids : List String) : CloudCall :=
  .removeScaleDownDisabled (ids.map env.hostnameOf)

/-- First per-group loop of adjust: classify each group, skip (with the
annotation cleanup) those with no outdated instances whose desired equals
the recorded originalDesired, and otherwise collect the group and its
instances.  A groupInstances error stops the loop and is returned to
adjust, which aborts the tick; events of the earlier iterations are kept.
Go iterates the collected groups through a map whose order is unspecified;
the model keeps insertion order. -/
def screenGroups (env : AdjustEnv) (st : RollerState) :
    List Group → Option String × (List Group × List Instance × List CloudCall)
  | [] => (none, ([], [], []))
  | asg :: rest =>
    match groupInstances env.ec2 asg with
    | .error e => (some ("unable to group instances into new and old: " ++ e), ([], [], []))
    | .ok (oldInstances, newInstances) =>
      if oldInstances.length = 0 ∧ asg.desiredCapacity = origGet st asg.autoScalingGroupName then
        let r := screenGroups env st rest
        (r.1, (r.2.1, r.2.2.1,
          ensureNoScaleDownDisabledMark env (mapInstancesIds asg.instances) :: r.2.2.2))
      else
        let r := screenGroups env st rest
        (r.1, (asg :: r.2.1, oldInstances ++ newInstances ++ r.2.2.1, r.2.2.2))

/-- Second per-group loop of adjust: compute each group's adjustment,
skipping (continue) the group when calculateAdjustment fails, and record a
newDesired entry when the computed desired differs from the current one and
a newTerminate entry when a candidate was returned. -/
def calcLoop (env : AdjustEnv) (st : RollerState) (drain drainForce : Bool) :
    List Group → List (String × Int) × List (String × String) × List CloudCall
  | [] => ([], [], [])
  | asg :: rest =>
    let c := calculateAdjustment asg env.ec2 env.hostnameOf env.readinessHandler
      (origGet st asg.autoScalingGroupName) drain drainForce
    let r := calcLoop env st drain drainForce rest
    match c.1 with
    | .error _ => (r.1, r.2.1, c.2 ++ r.2.2)
    | .ok (newDesiredA, terminateID) =>
      ((if newDesiredA ≠ asg.desiredCapacity
          then (asg.autoScalingGroupName, newDesiredA) :: r.1 else r.1),
       (if terminateID ≠ "" then (asg.autoScalingGroupName, terminateID) :: r.2.1 else r.2.1),
       c.2 ++ r.2.2)

/-- Desired-application loop of adjust: one setAsgDesired per newDesired
entry; the first failure aborts the tick with an error.  The group record is
recovered by name from the collected groups (always present on reachable
inputs; a miss is skipped). -/
def applyDesired (env : AdjustEnv) (canIncreaseMax : Bool) (asgMap : List Group) :
    List (String × Int) → Option String × List CloudCall
  | [] => (none, [])
  | (name, desired) :: rest =>
    match asgMap.find? (fun g => g.autoScalingGroupName = name) with
    | none => applyDesired env canIncreaseMax asgMap rest
    | some asg =>
      let c := setAsgDesired env.asgSvc asg desired canIncreaseMax
      match c.1 with
      | .error e =>
        (some ("[" ++ name ++ "] error setting desired to " ++ toString desired ++ ": " ++ e),
         c.2)
      | .ok _ =>
        let r := applyDesired env canIncreaseMax asgMap rest
        (r.1, c.2 ++ r.2)

/-- Termination loop of adjust: one awsTerminateNode per newTerminate
entry; the first failure aborts the tick with an error. -/
def applyTerminate (env : AdjustEnv) :
    List (String × String) → Option String × List CloudCall
  | [] => (none, [])
  | (name, id) :: rest =>
    let c := awsTerminateNode env.asgSvc id
    match c.1 with
    | .error e =>
      (some ("[" ++ name ++ "] error terminating node " ++ id ++ ": " ++ e), c.2)
    | .ok _ =>
      let r := applyTerminate env rest
      (r.1, c.2 ++ r.2)

/-- Outcome of one adjust tick: the returned error (none for nil), the
process state after the tick and the trace of external calls performed. -/
structure AdjustResult where
  err : Option String
  state : RollerState
  trace : List CloudCall

/-- Embeds adjust from rolling.go: describe the groups, populate the
originalDesired map, screen the groups, compute every adjustment, then
apply the desired changes and the terminations. -/
def adjust (asgList : List String) (env : AdjustEnv) (st : RollerState)
    (storeOriginalDesiredOnTag canIncreaseMax drain drainForce : Bool) : AdjustResult :=
  match env.describeGroups asgList with
  | .error e => ⟨some ("Unexpected error describing ASGs, skipping: " ++ e), st, []⟩
  | .ok asgs =>
    let p := populateOriginalDesired storeOriginalDesiredOnTag asgs st
    match p.1 with
    | some e =>
      ⟨some ("unexpected error looking up original desired values for ASGs, skipping: " ++ e),
       p.2, []⟩
    | none =>
      let sc := screenGroups env p.2 asgs
      match sc.1 with
      | some e => ⟨some e, p.2, sc.2.2.2⟩
      | none =>
        if sc.2.2.1.length = 0 then ⟨none, p.2, sc.2.2.2⟩
        else
          let cl := calcLoop env p.2 drain drainForce sc.2.1
          let ad := applyDesired env canIncreaseMax sc.2.1 cl.1
          match ad.1 with
          | some e => ⟨some e, p.2, sc.2.2.2 ++ cl.2.2 ++ ad.2⟩
          | none =>
            let at4 := applyTerminate env cl.2.1
            ⟨at4.1, p.2, sc.2.2.2 ++ cl.2.2 ++ ad.2 ++ at4.2⟩

/-- Embeds one corev1.NodeCondition restricted to its Type field. -/
structure NodeCondition where
  condType : String
deriving Repr, DecidableEq

/-- Embeds one corev1.Node restricted to its name and status conditions. -/
structure Node where
  name : String
  conditions : List NodeCondition
deriving Repr, DecidableEq

/-- Embeds the kubernetesReadiness getUnreadyCount method: list every
cluster node, keep those whose name is among the queried hostnames, and
count a kept node when the last of its conditions is not of type Ready.
The unguarded conditions[len(conditions)-1] access of the source panics on
an empty condition list; the panic is modelled as `none`.  The ids argument
is unused by the source body and kept for the interface. -/
def getUnreadyCount (clusterNodes : List Node) (hostnames : List String)
    (ids : List String) : Option Nat :=
  match clusterNodes with
  | [] => some 0
  | n :: rest =>
    if hostnames.contains n.name then
      match n.conditions.getLast? with
      | none => none
      | some c =>
        (getUnreadyCount rest hostnames ids).map
          (fun k => if c.condType ≠ "Ready" then k + 1 else k)
    else getUnreadyCount rest hostnames ids

/-- Modelled from the spec: the not-ready count the specification describes
for getUnreadyCount, where a queried hostname with no node record in the
cluster also counts as not ready, and a matched hostname counts as not
ready exactly when the last condition of its node is not of type Ready. -/
def specUnreadyCount (clusterNodes : List Node) (hostnames : List String) : Nat :=
  (hostnames.filter (fun h =>
    match clusterNodes.find? (fun n => n.name = h) with
    | none => true
    | some n =>
      match n.conditions.getLast? with
      | none => true
      | some c => c.condType ≠ "Ready")).length

/-- Count of matched cluster nodes whose last condition is not of type
Ready: the quantity getUnreadyCount actually computes on panic-free
inputs. -/
def matchedUnreadyCount (clusterNodes : List Node) (hostnames : List String) : Nat :=
  (clusterNodes.filter (fun n =>
    hostnames.contains n.name &&
      (match n.conditions.getLast? with
       | none => true
       | some c => decide (c.condType ≠ "Ready")))).length

/-! Concrete fixtures used by the witnesses and counterexamples below. -/

/-- AutoScaling service whose calls all succeed. -/
def okSvc : AsgService := ⟨fun _ _ => none, fun _ _ => none, fun _ => none⟩

/-- EC2 service with no launch templates (the fixtures use launch
configurations). -/
def emptyEc2 : Ec2Api := ⟨fun _ => none, fun _ => none⟩

/-- Initial process state: empty originalDesired map, no tags anywhere. -/
def st0 : RollerState := ⟨fun _ => none, fun _ => .absent⟩

/-- Process state whose OriginalDesired tag for group g carries the value 2. -/
def stTag2 : RollerState := ⟨fun _ => none, fun n => if n = "g" then .value 2 else .absent⟩

/-- Process state that already records OriginalDesired 2 for group g in
memory, with no cloud tags. -/
def stMem2 : RollerState := ⟨fun n => if n = "g" then some 2 else none, fun _ => .absent⟩

/-- Shorthand for an instance carrying a launch-configuration name. -/
def instOf (id h lc : String) : Instance := ⟨id, h, some lc, none⟩

/-- Group g before a roll: desired 2, max 3, two outdated healthy members. -/
def gStart : Group :=
  ⟨"g", 2, 3, [instOf "i1" "Healthy" "old", instOf "i2" "Healthy" "old"],
   some "new", none, none⟩

/-- Group g mid-roll: desired 3, two outdated and one updated member, all
healthy. -/
def gMid : Group :=
  ⟨"g", 3, 3, [instOf "i1" "Healthy" "old", instOf "i2" "Healthy" "old",
               instOf "i3" "Healthy" "new"], some "new", none, none⟩

/-- Group g at end of roll: desired 3, three updated healthy members. -/
def gEnd : Group :=
  ⟨"g", 3, 3, [instOf "i2" "Healthy" "new", instOf "i3" "Healthy" "new",
               instOf "i4" "Healthy" "new"], some "new", none, none⟩

/-- Group g one tick after the end of a roll: desired restored to 2. -/
def gEnd2 : Group :=
  ⟨"g", 2, 3, [instOf "i2" "Healthy" "new", instOf "i3" "Healthy" "new",
               instOf "i4" "Healthy" "new"], some "new", none, none⟩

/-- Group that fails classification: neither launch configuration nor
launch template. -/
def gBad : Group := ⟨"bad", 1, 2, [instOf "i9" "Healthy" "x"], none, none, none⟩

/-- Environment whose describe call returns the given groups, with
hostnames "host" ++ id and no readiness handler. -/
def envFor (gs : List Group) : AdjustEnv :=
  ⟨fun _ => .ok gs, fun id => "host" ++ id, emptyEc2, okSvc, none⟩

/-- Readiness handler that reports zero unready nodes and drains without
error. -/
def rhOk : ReadinessHandler := ⟨fun _ _ => .ok 0, fun _ _ _ _ => .ok ()⟩

/-- Readiness handler whose getUnreadyCount call fails. -/
def rhErr : ReadinessHandler := ⟨fun _ _ => .error "boom", fun _ _ _ _ => .ok ()⟩

/-- Environment like envFor with the failing readiness handler attached. -/
def envErrFor (gs : List Group) : AdjustEnv :=
  ⟨fun _ => .ok gs, fun id => "host" ++ id, emptyEc2, okSvc, some rhErr⟩

/-- Predicate on trace events: a termination of one of the given group's
member instances. -/
def terminatesMemberOf (g : Group) : CloudCall → Bool
  | .terminateInstance id => (mapInstancesIds g.instances).contains id
  | _ => false

/-! Claim theorems. -/

/-- C9: for every launch template with concrete latest and default version
numbers, compareLaunchTemplateVersions is symmetric and reflexive, because
both specifications resolve their version sentinels against the same
template before the string-equality test. -/
theorem c9_compareLaunchTemplateVersions_symm_refl (t : LaunchTemplate)
    (a b : Option LaunchTemplateSpec) :
    compareLaunchTemplateVersions t a b = compareLaunchTemplateVersions t b a ∧
    compareLaunchTemplateVersions t a a = true := by
  constructor
  · cases a with
    | none =>
      cases b with
      | none => rfl
      | some lb =>
        simp only [compareLaunchTemplateVersions]
    | some la =>
      cases b with
      | none => simp only [compareLaunchTemplateVersions]
      | some lb =>
        simp only [compareLaunchTemplateVersions]
        cases la.version with
        | none =>
          cases lb.version with
          | none => rfl
          | some v2 => rfl
        | some v1 =>
          cases lb.version with
          | none => rfl
          | some v2 => simp [eq_comm]
  · cases a with
    | none => rfl
    | some la =>
      simp only [compareLaunchTemplateVersions]
      cases la.version with
      | none => rfl
      | some v => simp

/-- C1: populateOriginalDesired carries no guard for an existing in-memory
entry, so with tag persistence disabled a tick taken mid-roll overwrites the
recorded OriginalDesired with the group's current (already raised) desired
capacity: with OriginalDesired 2 recorded for g and g currently at desired
3 mid-roll, the bootstrap runs again and the entry becomes 3, both at the
populateOriginalDesired level and across a whole adjust tick. -/
theorem c1_populateOriginalDesired_overwrites_mid_roll :
    stMem2.origMap "g" = some 2 ∧ gMid.desiredCapacity = 3 ∧
    (populateOriginalDesired false [gMid] stMem2).2.origMap "g" = some 3 ∧
    (adjust ["g"] (envFor [gMid]) stMem2 false false true true).state.origMap "g" = some 3 := by
  exact ⟨rfl, rfl, rfl, rfl⟩

/-- C3 counterexample: a queried hostname with no node record in the
cluster is not counted by getUnreadyCount, while the claimed count (unknown
nodes count as not ready) is 1: on an empty cluster the code returns 0. -/
theorem c3_counterexample_unknown_hostname_not_counted :
    getUnreadyCount [] ["h1"] ["i1"] = some 0 ∧
    specUnreadyCount [] ["h1"] = 1 ∧
    getUnreadyCount [] ["h1"] ["i1"] ≠ some (specUnreadyCount [] ["h1"]) := by
  exact ⟨rfl, rfl, by decide⟩

/-- C3 amended: getUnreadyCount returns the number of cluster nodes whose
name is among the queried hostnames and whose last reported condition is
not of type Ready; queried hostnames with no node record contribute
nothing.  Stated on inputs where every matched node reports at least one
condition (otherwise the source panics). -/
theorem c3_getUnreadyCount_matched_only (clusterNodes : List Node)
    (hostnames ids : List String)
    (h : ∀ n ∈ clusterNodes, hostnames.contains n.name → n.conditions ≠ []) :
    getUnreadyCount clusterNodes hostnames ids =
      some (matchedUnreadyCount clusterNodes hostnames) := by
  induction clusterNodes with
  | nil => rfl
  | cons n rest ih =>
    have hrest : ∀ m ∈ rest, hostnames.contains m.name → m.conditions ≠ [] := by
      intro m hm
      exact h m (List.mem_cons_of_mem _ hm)
    by_cases hc : hostnames.contains n.name
    · have hne : n.conditions ≠ [] := h n (List.mem_cons_self _ _) hc
      obtain ⟨c, hlast⟩ := Option.isSome_iff_exists.mp
        (List.getLast?_isSome.mpr hne)
      rw [getUnreadyCount, matchedUnreadyCount, List.filter_cons]
      simp only [hc, hlast, ih hrest, Option.map_some]
      by_cases hr : c.condType = "Ready"
      · simp [hr, matchedUnreadyCount]
      · simp [hr, matchedUnreadyCount]
    · rw [getUnreadyCount, matchedUnreadyCount, List.filter_cons]
      simp only [hc, ih hrest]
      simp [matchedUnreadyCount]

/-- C3 witness: the amended statement evaluated at a two-node cluster where
one queried node has Ready last and the other does not. -/
theorem c3_witness :
    getUnreadyCount [⟨"h1", [⟨"Foo"⟩, ⟨"Ready"⟩]⟩, ⟨"h2", [⟨"Foo"⟩]⟩]
        ["h1", "h2", "h3"] ["i1", "i2", "i3"] = some 1 := by
  have := c3_getUnreadyCount_matched_only
    [⟨"h1", [⟨"Foo"⟩, ⟨"Ready"⟩]⟩, ⟨"h2", [⟨"Foo"⟩]⟩]
    ["h1", "h2", "h3"] ["i1", "i2", "i3"] (by decide)
  simpa using this

/-- C10: the conditions access of getUnreadyCount is in bounds, and the
function therefore panic-free, exactly when every cluster node whose name
is among the queried hostnames carries at least one status condition. -/
theorem c10_getUnreadyCount_panic_free_iff (clusterNodes : List Node)
    (hostnames ids : List String) :
    (getUnreadyCount clusterNodes hostnames ids).isSome ↔
      ∀ n ∈ clusterNodes, hostnames.contains n.name → n.conditions ≠ [] := by
  induction clusterNodes with
  | nil => simp [getUnreadyCount]
  | cons n rest ih =>
    rw [getUnreadyCount]
    by_cases hc : hostnames.contains n.name
    · rw [if_pos hc]
      cases hlast : n.conditions.getLast? with
      | none =>
        have hnil : n.conditions = [] := by
          by_contra hne
          have hs := List.getLast?_isSome.mpr hne
          rw [hlast] at hs
          simp at hs
        constructor
        · intro hfalse
          simp at hfalse
        · intro hall
          exact absurd hnil (hall n (List.mem_cons_self _ _) hc)
      | some c =>
        have hne : n.conditions ≠ [] := by
          intro hnil
          rw [hnil] at hlast
          simp at hlast
        constructor
        · intro hs m hm hmc
          rcases List.mem_cons.mp hm with h1 | h2
          · subst h1; exact hne
          · have hrs : (getUnreadyCount rest hostnames ids).isSome := by
              cases hrec : getUnreadyCount rest hostnames ids with
              | none => rw [hrec] at hs; simp at hs
              | some k => simp
            exact ih.mp hrs m h2 hmc
        · intro hall
          have hrs : (getUnreadyCount rest hostnames ids).isSome :=
            ih.mpr (fun m hm hmc => hall m (List.mem_cons_of_mem _ hm) hmc)
          cases hrec : getUnreadyCount rest hostnames ids with
          | none => rw [hrec] at hrs; simp at hrs
          | some k => simp
    · rw [if_neg hc, ih]
      constructor
      · intro hall m hm hmc
        rcases List.mem_cons.mp hm with h1 | h2
        · subst h1; exact absurd hmc hc
        · exact hall m h2 hmc
      · intro hall m hm hmc
        exact hall m (List.mem_cons_of_mem _ hm) hmc

/-- C10 witness: the equivalence applied at a concrete cluster, giving the
in-bounds direction at a matched node with a nonempty condition list. -/
theorem c10_witness :
    (getUnreadyCount [⟨"h1", [⟨"Ready"⟩]⟩] ["h1"] ["i1"]).isSome := by
  exact (c10_getUnreadyCount_panic_free_iff [⟨"h1", [⟨"Ready"⟩]⟩] ["h1"] ["i1"]).mpr
    (by decide)

/-- C7: when the requested count exceeds the group's max size, setAsgDesired
with canIncreaseMax false fails with a user-visible error and performs no
cloud call at all, while with canIncreaseMax true it first issues the
UpdateAutoScalingGroup call raising max to the requested count and then,
when that call succeeds, the SetDesiredCapacity call. -/
theorem c7_setAsgDesired_max_ceiling (svc : AsgService) (asg : Group) (count : Int)
    (hgt : asg.maxSize < count) :
    ((∃ e, (setAsgDesired svc asg count false).1 = .error e) ∧
     (setAsgDesired svc asg count false).2 = []) ∧
    (svc.updateAutoScalingGroupResult asg.autoScalingGroupName count = none →
     (setAsgDesired svc asg count true).2 =
       [CloudCall.updateMaxSize asg.autoScalingGroupName count,
        CloudCall.setDesiredCapacity asg.autoScalingGroupName count]) := by
  constructor
  · rw [setAsgDesired, if_pos hgt, if_neg Bool.false_ne_true]
    exact ⟨⟨_, rfl⟩, rfl⟩
  · intro hupd
    rw [setAsgDesired, if_pos hgt, if_pos rfl]
    simp only [setAsgMax, hupd]
    rw [setDesiredCapacityCall]
    cases svc.setDesiredCapacityResult asg.autoScalingGroupName count with
    | none => rfl
    | some e => rfl

/-- C7 witness: the theorem applied to the all-success service and a group
at max size 2 with requested count 3. -/
theorem c7_witness :
    ((∃ e, (setAsgDesired okSvc ⟨"g", 2, 2, [], some "new", none, none⟩ 3 false).1 = .error e) ∧
     (setAsgDesired okSvc ⟨"g", 2, 2, [], some "new", none, none⟩ 3 false).2 = []) ∧
    (setAsgDesired okSvc ⟨"g", 2, 2, [], some "new", none, none⟩ 3 true).2 =
      [CloudCall.updateMaxSize "g" 3, CloudCall.setDesiredCapacity "g" 3] := by
  refine ⟨(c7_setAsgDesired_max_ceiling okSvc ⟨"g", 2, 2, [], some "new", none, none⟩ 3
    (by decide)).1, ?_⟩
  exact (c7_setAsgDesired_max_ceiling okSvc ⟨"g", 2, 2, [], some "new", none, none⟩ 3
    (by decide)).2 rfl

/-- C6: for a group mid-roll (some outdated instance, current desired
strictly above OriginalDesired), when fewer than OriginalDesired + 1 of all
members report Healthy, or some instance of the new set is not Healthy,
calculateAdjustment waits: it returns the current desired unchanged, no
termination candidate, and performs no readiness call. -/
theorem c6_mid_roll_wait (asg : Group) (ec2Svc : Ec2Api) (hostnameMap : String → String)
    (readinessHandler : Option ReadinessHandler) (originalDesired : Int)
    (drain drainForce : Bool) (o : Instance) (os news : List Instance)
    (hgi : groupInstances ec2Svc asg = .ok (o :: os, news))
    (hlt : originalDesired < asg.desiredCapacity)
    (hwait : (((asg.instances.filter (fun i => i.healthStatus = healthy)).length : Int) <
                originalDesired + 1) ∨
             (∃ i ∈ news, i.healthStatus ≠ healthy)) :
    calculateAdjustment asg ec2Svc hostnameMap readinessHandler originalDesired
        drain drainForce = (.ok (asg.desiredCapacity, ""), []) := by
  rw [calculateAdjustment, hgi]
  simp only
  rw [if_neg (by intro h; rw [h] at hlt; exact lt_irrefl _ hlt)]
  rcases hwait with hhealthy | ⟨i, hi, hunh⟩
  · rw [if_pos hhealthy]
  · by_cases hh : (((asg.instances.filter (fun i => i.healthStatus = healthy)).length : Int) <
      originalDesired + 1)
    · rw [if_pos hh]
    · rw [if_neg hh, if_pos]
      have : i ∈ news.filter (fun i => i.healthStatus ≠ healthy) :=
        List.mem_filter.mpr ⟨hi, by simpa using hunh⟩
      exact List.length_pos.mpr (fun hnil => by rw [hnil] at this; simp at this)

/-- C6 witness: mid-roll group with desired 3, OriginalDesired 2, two
healthy outdated members and one not-yet-healthy new member; both
disjuncts of the wait condition hold. -/
theorem c6_witness :
    calculateAdjustment
      ⟨"g", 3, 3, [instOf "i1" "Healthy" "old", instOf "i2" "Healthy" "old",
                   instOf "i3" "Down" "new"], some "new", none, none⟩
      emptyEc2 (fun id => "host" ++ id) (some rhOk) 2 true true =
      (.ok (3, ""), []) := by
  exact c6_mid_roll_wait
    ⟨"g", 3, 3, [instOf "i1" "Healthy" "old", instOf "i2" "Healthy" "old",
                 instOf "i3" "Down" "new"], some "new", none, none⟩
    emptyEc2 (fun id => "host" ++ id) (some rhOk) 2 true true
    (instOf "i1" "Healthy" "old") [instOf "i2" "Healthy" "old"]
    [instOf "i3" "Down" "new"] rfl (by decide)
    (Or.inl (by decide))

/-- C5: for a group with a non-empty old set whose current desired equals
its OriginalDesired, calculateAdjustment returns OriginalDesired + 1 with
no termination candidate and no readiness call; and on the literal roll
start scenario (desired 2, two old healthy members, max 3) the whole
adjust tick issues exactly SetDesiredCapacity(g, 3), terminates nothing and
leaves OriginalDesired[g] = 2. -/
theorem c5_roll_not_started (asg : Group) (ec2Svc : Ec2Api) (hostnameMap : String → String)
    (readinessHandler : Option ReadinessHandler) (originalDesired : Int)
    (drain drainForce : Bool) (o : Instance) (os news : List Instance)
    (hgi : groupInstances ec2Svc asg = .ok (o :: os, news))
    (heq : originalDesired = asg.desiredCapacity) :
    calculateAdjustment asg ec2Svc hostnameMap readinessHandler originalDesired
        drain drainForce = (.ok (originalDesired + 1, ""), []) ∧
    ((adjust ["g"] (envFor [gStart]) st0 false false true true).trace =
       [CloudCall.setDesiredCapacity "g" 3] ∧
     (adjust ["g"] (envFor [gStart]) st0 false false true true).err = none ∧
     (adjust ["g"] (envFor [gStart]) st0 false false true true).state.origMap "g" = some 2) := by
  constructor
  · rw [calculateAdjustment, hgi]
    simp only
    rw [if_pos heq]
  · exact ⟨rfl, rfl, rfl⟩

/-- C5 witness: the calculateAdjustment part applied at the roll-start
group itself (desired 2 equal to OriginalDesired 2, both members old). -/
theorem c5_witness :
    calculateAdjustment gStart emptyEc2 (fun id => "host" ++ id) none 2 true true =
      (.ok (3, ""), []) := by
  exact (c5_roll_not_started gStart emptyEc2 (fun id => "host" ++ id) none 2 true true
    (instOf "i1" "Healthy" "old") [instOf "i2" "Healthy" "old"] [] rfl rfl).1

/-- C4 counterexample: end-of-roll tick for group g (old set empty, desired
3 strictly above OriginalDesired 2, tag persistence on so the recorded
value survives the tick).  The tick issues only SetDesiredCapacity(g, 2):
no removeScaleDownDisabled call for the member hostnames happens in the
same tick, and the in-memory OriginalDesired entry is not cleared. -/
theorem c4_counterexample_same_tick :
    (adjust ["g"] (envFor [gEnd]) stTag2 true false true true).trace =
      [CloudCall.setDesiredCapacity "g" 2] ∧
    (adjust ["g"] (envFor [gEnd]) stTag2 true false true true).state.origMap "g" = some 2 ∧
    (adjust ["g"] (envFor [gEnd]) stTag2 true false true true).err = none := by
  exact ⟨rfl, rfl, rfl⟩

/-- C4 amended: at end of roll the tick calls setDesired with the
OriginalDesired value and nothing else; the removeScaleDownDisabled cleanup
for all member hostnames only happens on a subsequent tick, once the
group's desired again equals its OriginalDesired, and the in-memory
OriginalDesired entry is never deleted (it keeps the original value). -/
theorem c4_end_of_roll_across_ticks :
    (adjust ["g"] (envFor [gEnd]) stTag2 true false true true).trace =
      [CloudCall.setDesiredCapacity "g" 2] ∧
    (adjust ["g"] (envFor [gEnd]) stTag2 true false true true).state.origMap "g" = some 2 ∧
    (adjust ["g"] (envFor [gEnd2]) stTag2 true false true true).trace =
      [CloudCall.removeScaleDownDisabled ["hosti2", "hosti3", "hosti4"]] ∧
    (adjust ["g"] (envFor [gEnd2]) stTag2 true false true true).err = none := by
  exact ⟨rfl, rfl, rfl, rfl⟩

/-- C2 counterexample: with a group that fails classification listed ahead
of a group needing updates, the tick aborts with an error and performs no
call at all: the healthy group gStart, which alone would have received
SetDesiredCapacity(g, 3), is not reconciled in the same tick. -/
theorem c2_counterexample_classification_aborts_tick :
    (adjust ["bad", "g"] (envFor [gBad, gStart]) st0 false false true true).err.isSome ∧
    (adjust ["bad", "g"] (envFor [gBad, gStart]) st0 false false true true).trace = [] ∧
    (adjust ["g"] (envFor [gStart]) st0 false false true true).trace =
      [CloudCall.setDesiredCapacity "g" 3] := by
  exact ⟨rfl, rfl, rfl⟩

/-- Helper: the screening loop returns an error whenever any listed group
fails classification. -/
theorem screenGroups_err_of_classification_error (env : AdjustEnv) (st : RollerState)
    (asgs : List Group) (g : Group) (e : String) (hg : g ∈ asgs)
    (he : groupInstances env.ec2 g = .error e) :
    (screenGroups env st asgs).1.isSome := by
  induction asgs with
  | nil => cases hg
  | cons asg rest ih =>
    rw [screenGroups]
    rcases List.mem_cons.mp hg with h1 | h2
    · subst h1
      simp only [he]
      rfl
    · cases hgi : groupInstances env.ec2 asg with
      | error e2 => rfl
      | ok p =>
        obtain ⟨old, new⟩ := p
        simp only
        by_cases hcond : old.length = 0 ∧
            asg.desiredCapacity = origGet st asg.autoScalingGroupName
        · rw [if_pos hcond]
          exact ih h2
        · rw [if_neg hcond]
          exact ih h2

/-- Helper: every event raised by the screening loop is a
removeScaleDownDisabled call. -/
theorem screenGroups_trace_only_remove (env : AdjustEnv) (st : RollerState)
    (asgs : List Group) :
    ∀ call ∈ (screenGroups env st asgs).2.2.2,
      ∃ hs, call = CloudCall.removeScaleDownDisabled hs := by
  induction asgs with
  | nil =>
    intro call h
    simp [screenGroups] at h
  | cons asg rest ih =>
    intro call h
    rw [screenGroups] at h
    cases hgi : groupInstances env.ec2 asg with
    | error e =>
      simp only [hgi] at h
      simp at h
    | ok p =>
      obtain ⟨old, new⟩ := p
      simp only [hgi] at h
      by_cases hcond : old.length = 0 ∧
          asg.desiredCapacity = origGet st asg.autoScalingGroupName
      · rw [if_pos hcond] at h
        rcases List.mem_cons.mp h with h1 | h2
        · exact ⟨_, h1⟩
        · exact ih call h2
      · rw [if_neg hcond] at h
        exact ih call h

/-- C2: an error computing one group's adjustment (calculateAdjustment,
which includes its internal re-classification and the readiness queries)
skips only that group: the remaining groups of the loop keep their
newDesired and newTerminate outcomes unchanged.  A classification failure
in the initial grouping loop, however, aborts the entire tick: adjust
returns an error and no reconciliation beyond the annotation cleanup of
already screened groups happens for any group of the set. -/
theorem c2_group_failure_isolation :
    (∀ (env : AdjustEnv) (st : RollerState) (dr drf : Bool) (asg : Group)
       (rest : List Group) (e : String) (tr : List CloudCall),
       calculateAdjustment asg env.ec2 env.hostnameOf env.readinessHandler
           (origGet st asg.autoScalingGroupName) dr drf = (.error e, tr) →
       calcLoop env st dr drf (asg :: rest) =
         ((calcLoop env st dr drf rest).1, (calcLoop env st dr drf rest).2.1,
          tr ++ (calcLoop env st dr drf rest).2.2)) ∧
    (∀ (asgList : List String) (env : AdjustEnv) (st : RollerState)
       (s c dr drf : Bool) (asgs : List Group) (g : Group) (e : String),
       env.describeGroups asgList = .ok asgs → g ∈ asgs →
       groupInstances env.ec2 g = .error e →
       (adjust asgList env st s c dr drf).err.isSome ∧
       ∀ call ∈ (adjust asgList env st s c dr drf).trace,
         ∃ hs, call = CloudCall.removeScaleDownDisabled hs) := by
  constructor
  · intro env st dr drf asg rest e tr h
    rw [calcLoop, h]
  · intro asgList env st s c dr drf asgs g e hdesc hg he
    rw [adjust, hdesc]
    simp only
    cases hp : (populateOriginalDesired s asgs st).1 with
    | some e2 =>
      exact ⟨rfl, by intro call h; simp at h⟩
    | none =>
      have hscreen := screenGroups_err_of_classification_error env
        (populateOriginalDesired s asgs st).2 asgs g e hg he
      cases hsc : (screenGroups env (populateOriginalDesired s asgs st).2 asgs).1 with
      | none => rw [hsc] at hscreen; simp at hscreen
      | some e3 =>
        refine ⟨rfl, ?_⟩
        intro call h
        exact screenGroups_trace_only_remove env
          (populateOriginalDesired s asgs st).2 asgs call h

/-- C2 witness: the skip equation applied at a one-group tail and a group
whose readiness query fails mid-roll. -/
theorem c2_witness :
    calcLoop (envErrFor [gMid, gStart]) stMem2 true true [gMid, gStart] =
      ((calcLoop (envErrFor [gMid, gStart]) stMem2 true true [gStart]).1,
       (calcLoop (envErrFor [gMid, gStart]) stMem2 true true [gStart]).2.1,
       [CloudCall.setScaleDownDisabled ["hosti3"]] ++
         (calcLoop (envErrFor [gMid, gStart]) stMem2 true true [gStart]).2.2) ∧
    (adjust ["bad", "g"] (envFor [gBad, gStart]) st0 false false true true).err.isSome := by
  constructor
  · exact c2_group_failure_isolation.1 (envErrFor [gMid, gStart]) stMem2 true true
      gMid [gStart] "error getting readiness new node status: boom"
      [CloudCall.setScaleDownDisabled ["hosti3"]] rfl
  · exact (c2_group_failure_isolation.2 ["bad", "g"] (envFor [gBad, gStart]) st0
      false false true true [gBad, gStart] gBad
      "[bad] both target launch configuration and launch template are nil"
      rfl (by simp) rfl).1

/-- Helper: the old list returned by groupInstances consists of members of
the group (it is a filter of the group's instance list). -/
theorem groupInstances_old_subset (ec2Svc : Ec2Api) (asg : Group)
    (old new : List Instance) (h : groupInstances ec2Svc asg = .ok (old, new)) :
    ∀ i ∈ old, i ∈ asg.instances := by
  rw [groupInstances] at h
  cases htl : targetLtOf asg with
  | some targetLt =>
    simp only [htl] at h
    cases hrt : resolveTargetTemplate ec2Svc asg targetLt with
    | error e => simp only [hrt] at h; cases h
    | ok tt =>
      cases tt with
      | none => simp only [hrt] at h; cases h
      | some targetTemplate =>
        simp only [hrt] at h
        obtain ⟨h1, h2⟩ := Prod.mk.injEq .. ▸ Except.ok.injEq .. ▸ h
        intro i hi
        rw [← h1] at hi
        exact List.mem_of_mem_filter hi
  | none =>
    simp only [htl] at h
    cases hlc : asg.launchConfigurationName with
    | some targetLc =>
      simp only [hlc] at h
      obtain ⟨h1, h2⟩ := Prod.mk.injEq .. ▸ Except.ok.injEq .. ▸ h
      intro i hi
      rw [← h1] at hi
      exact List.mem_of_mem_filter hi
    | none => simp only [hlc] at h; cases h

/-- Helper: a non-empty termination candidate returned by
calculateAdjustment is the id of one of the group's member instances. -/
theorem calculateAdjustment_candidate_mem (asg : Group) (ec2Svc : Ec2Api)
    (hostnameMap : String → String) (rh : Option ReadinessHandler)
    (orig : Int) (dr drf : Bool) (d : Int) (t : String)
    (h : (calculateAdjustment asg ec2Svc hostnameMap rh orig dr drf).1 = .ok (d, t))
    (ht : t ≠ "") : t ∈ mapInstancesIds asg.instances := by
  rw [calculateAdjustment] at h
  cases hgi : groupInstances ec2Svc asg with
  | error e => simp only [hgi] at h; cases h
  | ok p =>
    obtain ⟨old, new⟩ := p
    simp only [hgi] at h
    have hmem : ∀ i ∈ old, i ∈ asg.instances :=
      groupInstances_old_subset ec2Svc asg old new hgi
    cases old with
    | nil =>
      simp only at h
      cases h
      exact absurd rfl ht
    | cons o os =>
      have homem : o.instanceId ∈ mapInstancesIds asg.instances :=
        List.mem_map_of_mem _ (hmem o (List.mem_cons_self _ _))
      simp only at h
      by_cases he : orig = asg.desiredCapacity
      · rw [if_pos he] at h
        cases h
        exact absurd rfl ht
      · rw [if_neg he] at h
        split at h
        · cases h; exact absurd rfl ht
        · split at h
          · cases h; exact absurd rfl ht
          · cases hrh : rh with
            | some hdl =>
              simp only [hrh] at h
              cases hq : hdl.getUnreadyCount
                  ((mapInstancesIds new).map hostnameMap) (mapInstancesIds new) with
              | error e2 => simp only [hq] at h; cases h
              | ok n =>
                simp only [hq] at h
                by_cases hn : 0 < n
                · rw [if_pos hn] at h
                  cases h
                  exact absurd rfl ht
                · rw [if_neg hn] at h
                  simp only [hrh] at h
                  cases hpt : hdl.prepareTermination [hostnameMap o.instanceId]
                      [o.instanceId] dr drf with
                  | error e3 => simp only [hpt] at h; cases h
                  | ok u =>
                    simp only [hpt] at h
                    cases h
                    exact homem
            | none =>
              simp only [hrh] at h
              cases h
              exact homem

/-- Helper: calculateAdjustment never raises a terminateInstance event (the
actual termination call is issued later by adjust). -/
theorem calculateAdjustment_trace_no_terminate (asg : Group) (ec2Svc : Ec2Api)
    (hostnameMap : String → String) (rh : Option ReadinessHandler)
    (orig : Int) (dr drf : Bool) :
    ∀ call ∈ (calculateAdjustment asg ec2Svc hostnameMap rh orig dr drf).2,
      ∀ id, call ≠ CloudCall.terminateInstance id := by
  intro call hc id
  rw [calculateAdjustment] at hc
  cases hgi : groupInstances ec2Svc asg with
  | error e => simp only [hgi] at hc; simp at hc
  | ok p =>
    obtain ⟨old, new⟩ := p
    simp only [hgi] at hc
    cases old with
    | nil => simp only at hc; simp at hc
    | cons o os =>
      simp only at hc
      by_cases he : orig = asg.desiredCapacity
      · rw [if_pos he] at hc; simp at hc
      · rw [if_neg he] at hc
        split at hc
        · simp at hc
        · split at hc
          · simp at hc
          · cases hrh : rh with
            | some hdl =>
              simp only [hrh] at hc
              cases hq : hdl.getUnreadyCount
                  ((mapInstancesIds new).map hostnameMap) (mapInstancesIds new) with
              | error e2 =>
                simp only [hq] at hc
                simp at hc
                simp [hc]
              | ok n =>
                simp only [hq] at hc
                by_cases hn : 0 < n
                · rw [if_pos hn] at hc
                  simp at hc
                  simp [hc]
                · rw [if_neg hn] at hc
                  simp only [hrh] at hc
                  cases hpt : hdl.prepareTermination [hostnameMap o.instanceId]
                      [o.instanceId] dr drf with
                  | error e3 =>
                    simp only [hpt] at hc
                    rcases List.mem_cons.mp hc with h1 | h2
                    · simp [h1]
                    · rcases List.mem_cons.mp h2 with h3 | h4
                      · simp [h3]
                      · simp at h4
                  | ok u =>
                    simp only [hpt] at hc
                    rcases List.mem_cons.mp hc with h1 | h2
                    · simp [h1]
                    · rcases List.mem_cons.mp h2 with h3 | h4
                      · simp [h3]
                      · simp at h4
            | none =>
              simp only [hrh] at hc
              simp at hc

/-- Helper: the adjustment-computation loop never raises a
terminateInstance event. -/
theorem calcLoop_trace_no_terminate (env : AdjustEnv) (st : RollerState)
    (dr drf : Bool) (gs : List Group) :
    ∀ call ∈ (calcLoop env st dr drf gs).2.2,
      ∀ id, call ≠ CloudCall.terminateInstance id := by
  induction gs with
  | nil => intro call hc; simp [calcLoop] at hc
  | cons asg rest ih =>
    intro call hc id
    rw [calcLoop] at hc
    cases hca : (calculateAdjustment asg env.ec2 env.hostnameOf env.readinessHandler
        (origGet st asg.autoScalingGroupName) dr drf).1 with
    | error e =>
      simp only [hca] at hc
      rcases List.mem_append.mp hc with h1 | h2
      · exact calculateAdjustment_trace_no_terminate asg env.ec2 env.hostnameOf
          env.readinessHandler (origGet st asg.autoScalingGroupName) dr drf call h1 id
      · exact ih call h2 id
    | ok p =>
      obtain ⟨d, t⟩ := p
      simp only [hca] at hc
      rcases List.mem_append.mp hc with h1 | h2
      · exact calculateAdjustment_trace_no_terminate asg env.ec2 env.hostnameOf
          env.readinessHandler (origGet st asg.autoScalingGroupName) dr drf call h1 id
      · exact ih call h2 id

/-- Helper: setAsgDesired only raises updateMaxSize and setDesiredCapacity
events. -/
theorem setAsgDesired_trace_no_terminate (svc : AsgService) (asg : Group)
    (count : Int) (can : Bool) :
    ∀ call ∈ (setAsgDesired svc asg count can).2,
      ∀ id, call ≠ CloudCall.terminateInstance id := by
  intro call hc id
  rw [setAsgDesired] at hc
  split at hc
  · cases can with
    | false =>
      rw [if_neg Bool.false_ne_true] at hc
      simp at hc
    | true =>
      rw [if_pos rfl] at hc
      rw [setAsgMax] at hc
      cases hu : svc.updateAutoScalingGroupResult asg.autoScalingGroupName count with
      | none =>
        simp only [hu] at hc
        rw [setDesiredCapacityCall] at hc
        cases hs : svc.setDesiredCapacityResult asg.autoScalingGroupName count with
        | none =>
          simp only [hs] at hc
          rcases List.mem_append.mp hc with h1 | h2
          · simp at h1; simp [h1]
          · simp at h2; simp [h2]
        | some e =>
          simp only [hs] at hc
          rcases List.mem_append.mp hc with h1 | h2
          · simp at h1; simp [h1]
          · simp at h2; simp [h2]
      | some e =>
        simp only [hu] at hc
        simp at hc
        simp [hc]
  · rw [setDesiredCapacityCall] at hc
    cases hs : svc.setDesiredCapacityResult asg.autoScalingGroupName count with
    | none => simp only [hs] at hc; simp at hc; simp [hc]
    | some e => simp only [hs] at hc; simp at hc; simp [hc]

/-- Helper: the desired-application loop never raises a terminateInstance
event. -/
theorem applyDesired_trace_no_terminate (env : AdjustEnv) (can : Bool)
    (asgMap : List Group) (ds : List (String × Int)) :
    ∀ call ∈ (applyDesired env can asgMap ds).2,
      ∀ id, call ≠ CloudCall.terminateInstance id := by
  induction ds with
  | nil => intro call hc; simp [applyDesired] at hc
  | cons p rest ih =>
    obtain ⟨name, desired⟩ := p
    intro call hc id
    rw [applyDesired] at hc
    cases hf : asgMap.find? (fun g => g.autoScalingGroupName = name) with
    | none =>
      simp only [hf] at hc
      exact ih call hc id
    | some asg =>
      simp only [hf] at hc
      cases hsd : (setAsgDesired env.asgSvc asg desired can).1 with
      | error e =>
        simp only [hsd] at hc
        exact setAsgDesired_trace_no_terminate env.asgSvc asg desired can call hc id
      | ok u =>
        simp only [hsd] at hc
        rcases List.mem_append.mp hc with h1 | h2
        · exact setAsgDesired_trace_no_terminate env.asgSvc asg desired can call h1 id
        · exact ih call h2 id

/-- Helper: the termination loop raises exactly one terminateInstance event
per processed entry, so its trace is the image of a prefix of the
newTerminate list. -/
theorem applyTerminate_trace_take (env : AdjustEnv) (ts : List (String × String)) :
    ∃ k, (applyTerminate env ts).2 =
      (ts.take k).map (fun p => CloudCall.terminateInstance p.2) := by
  induction ts with
  | nil => exact ⟨0, rfl⟩
  | cons p rest ih =>
    obtain ⟨name, id⟩ := p
    rw [applyTerminate]
    cases ht : (awsTerminateNode env.asgSvc id).1 with
    | error e =>
      refine ⟨1, ?_⟩
      simp only [ht]
      rw [awsTerminateNode] at ht ⊢
      cases hres : env.asgSvc.terminateInstanceResult id with
      | none => simp only [hres] at ht; cases ht
      | some e2 => simp [hres]
    | ok u =>
      obtain ⟨k, hk⟩ := ih
      refine ⟨k + 1, ?_⟩
      simp only [ht]
      rw [awsTerminateNode] at ht ⊢
      cases hres : env.asgSvc.terminateInstanceResult id with
      | none => simp [hres, hk]
      | some e2 => simp only [hres] at ht; cases ht

/-- Helper: every newTerminate entry produced by the
adjustment-computation loop carries the name of one processed group paired
with the id of one of that group's member instances. -/
theorem calcLoop_terminate_mem (env : AdjustEnv) (st : RollerState)
    (dr drf : Bool) (gs : List Group) :
    ∀ p ∈ (calcLoop env st dr drf gs).2.1, ∃ asg ∈ gs,
      p.1 = asg.autoScalingGroupName ∧ p.2 ∈ mapInstancesIds asg.instances := by
  induction gs with
  | nil => intro p hp; simp [calcLoop] at hp
  | cons asg rest ih =>
    intro p hp
    rw [calcLoop] at hp
    cases hca : (calculateAdjustment asg env.ec2 env.hostnameOf env.readinessHandler
        (origGet st asg.autoScalingGroupName) dr drf).1 with
    | error e =>
      simp only [hca] at hp
      obtain ⟨asg2, hm, h1, h2⟩ := ih p hp
      exact ⟨asg2, List.mem_cons_of_mem _ hm, h1, h2⟩
    | ok q =>
      obtain ⟨d, t⟩ := q
      simp only [hca] at hp
      by_cases ht : t ≠ ""
      · rw [if_pos ht] at hp
        rcases List.mem_cons.mp hp with h1 | h2
        · subst h1
          exact ⟨asg, List.mem_cons_self _ _, rfl,
            calculateAdjustment_candidate_mem asg env.ec2 env.hostnameOf
              env.readinessHandler (origGet st asg.autoScalingGroupName) dr drf d t hca ht⟩
        · obtain ⟨asg2, hm, ha, hb⟩ := ih p h2
          exact ⟨asg2, List.mem_cons_of_mem _ hm, ha, hb⟩
      · rw [if_neg ht] at hp
        obtain ⟨asg2, hm, ha, hb⟩ := ih p hp
        exact ⟨asg2, List.mem_cons_of_mem _ hm, ha, hb⟩

/-- Helper: the group names keying the newTerminate list form a sublist of
the processed group names, hence each group contributes at most one entry
when the names are distinct. -/
theorem calcLoop_terminate_keys_sublist (env : AdjustEnv) (st : RollerState)
    (dr drf : Bool) (gs : List Group) :
    ((calcLoop env st dr drf gs).2.1.map Prod.fst).Sublist
      (gs.map Group.autoScalingGroupName) := by
  induction gs with
  | nil => simp [calcLoop]
  | cons asg rest ih =>
    rw [calcLoop]
    cases hca : (calculateAdjustment asg env.ec2 env.hostnameOf env.readinessHandler
        (origGet st asg.autoScalingGroupName) dr drf).1 with
    | error e =>
      simp only [hca, List.map_cons]
      exact ih.cons _
    | ok q =>
      obtain ⟨d, t⟩ := q
      simp only [hca, List.map_cons]
      by_cases ht : t ≠ ""
      · rw [if_pos ht]
        exact ih.cons₂ _
      · rw [if_neg ht]
        exact ih.cons _

/-- Helper: the kept groups of the screening loop form a sublist of the
described groups. -/
theorem screenGroups_map_sublist (env : AdjustEnv) (st : RollerState)
    (asgs : List Group) :
    (screenGroups env st asgs).2.1.Sublist asgs := by
  induction asgs with
  | nil => simp [screenGroups]
  | cons asg rest ih =>
    rw [screenGroups]
    cases hgi : groupInstances env.ec2 asg with
    | error e => simp only; exact List.nil_sublist _
    | ok p =>
      obtain ⟨old, new⟩ := p
      simp only
      by_cases hcond : old.length = 0 ∧
          asg.desiredCapacity = origGet st asg.autoScalingGroupName
      · rw [if_pos hcond]
        exact ih.cons _
      · rw [if_neg hcond]
        exact ih.cons₂ _

/-- Helper: a trace event matched by terminatesMemberOf is a
terminateInstance call for one of the group's member ids. -/
theorem terminatesMemberOf_spec (g : Group) (call : CloudCall)
    (h : terminatesMemberOf g call = true) :
    ∃ id, call = CloudCall.terminateInstance id ∧
      id ∈ mapInstancesIds g.instances := by
  cases call with
  | terminateInstance id =>
    exact ⟨id, rfl, List.elem_iff.mp h⟩
  | setDesiredCapacity n c => simp [terminatesMemberOf] at h
  | updateMaxSize n c => simp [terminatesMemberOf] at h
  | setScaleDownDisabled hs => simp [terminatesMemberOf] at h
  | removeScaleDownDisabled hs => simp [terminatesMemberOf] at h
  | prepareTermination hs ids => simp [terminatesMemberOf] at h

/-- Helper: a trace with no terminateInstance event contains no termination
of any group member. -/
theorem countP_terminate_zero (g : Group) (tr : List CloudCall)
    (h : ∀ call ∈ tr, ∀ id, call ≠ CloudCall.terminateInstance id) :
    tr.countP (terminatesMemberOf g) = 0 := by
  rw [List.countP_eq_zero]
  intro call hc hcall
  obtain ⟨id, heq, _⟩ := terminatesMemberOf_spec g call hcall
  exact h call hc id heq

/-- Helper: over a duplicate-free list, at most one element is equal to any
given value. -/
theorem countP_beq_le_one_of_nodup {α : Type} [BEq α] [LawfulBEq α] (a : α) :
    ∀ l : List α, l.Nodup → l.countP (fun x => x == a) ≤ 1
  | [], _ => by simp
  | x :: xs, h => by
    rw [List.countP_cons]
    rcases List.nodup_cons.mp h with ⟨hx, hxs⟩
    by_cases hxa : (x == a) = true
    · have hz : xs.countP (fun y => y == a) = 0 := by
        rw [List.countP_eq_zero]
        intro y hy hya
        have h1 : y = a := eq_of_beq hya
        have h2 : x = a := eq_of_beq hxa
        exact hx (h2 ▸ h1 ▸ hy)
      simp [hxa, hz]
    · have hrec := countP_beq_le_one_of_nodup a xs hxs
      rw [if_neg hxa]
      omega

/-- Helper: over the newTerminate list of one tick, at most one entry names
an instance of any fixed group, provided the described groups have distinct
names and pairwise disjoint member ids. -/
theorem calcLoop_terminate_countP_le_one (env : AdjustEnv) (st : RollerState)
    (dr drf : Bool) (asgs asgMap : List Group) (g : Group)
    (hsub : asgMap.Sublist asgs)
    (hnodup : (asgs.map Group.autoScalingGroupName).Nodup)
    (hdisj : ∀ g1 ∈ asgs, ∀ g2 ∈ asgs,
      g1.autoScalingGroupName ≠ g2.autoScalingGroupName →
      ∀ id ∈ mapInstancesIds g1.instances, id ∉ mapInstancesIds g2.instances)
    (hg : g ∈ asgs) :
    (calcLoop env st dr drf asgMap).2.1.countP
      (fun p => (mapInstancesIds g.instances).contains p.2) ≤ 1 := by
  have hstep : ∀ p ∈ (calcLoop env st dr drf asgMap).2.1,
      ((mapInstancesIds g.instances).contains p.2) = true →
      (p.1 == g.autoScalingGroupName) = true := by
    intro p hp hcont
    obtain ⟨asg2, hm, ha, hb⟩ := calcLoop_terminate_mem env st dr drf asgMap p hp
    have hmem : p.2 ∈ mapInstancesIds g.instances := List.elem_iff.mp hcont
    by_cases hne : asg2.autoScalingGroupName = g.autoScalingGroupName
    · rw [ha, hne]
      exact beq_self_eq_true _
    · exact absurd hmem (hdisj asg2 (hsub.subset hm) g hg hne p.2 hb)
  have h1 := List.countP_mono_left hstep
  have h2 : (calcLoop env st dr drf asgMap).2.1.countP
      (fun p => p.1 == g.autoScalingGroupName) =
      ((calcLoop env st dr drf asgMap).2.1.map Prod.fst).countP
      (fun x => x == g.autoScalingGroupName) := by
    rw [List.countP_map]
    rfl
  have hkeysnodup : ((calcLoop env st dr drf asgMap).2.1.map Prod.fst).Nodup :=
    ((calcLoop_terminate_keys_sublist env st dr drf asgMap).trans
      (hsub.map Group.autoScalingGroupName)).nodup hnodup
  have h3 := countP_beq_le_one_of_nodup g.autoScalingGroupName _ hkeysnodup
  omega

/-- Helper: the termination phase of one tick terminates at most one member
of any fixed group, under the same distinctness hypotheses. -/
theorem applyTerminate_countP_le_one (env : AdjustEnv) (st : RollerState)
    (dr drf : Bool) (asgs asgMap : List Group) (g : Group)
    (hsub : asgMap.Sublist asgs)
    (hnodup : (asgs.map Group.autoScalingGroupName).Nodup)
    (hdisj : ∀ g1 ∈ asgs, ∀ g2 ∈ asgs,
      g1.autoScalingGroupName ≠ g2.autoScalingGroupName →
      ∀ id ∈ mapInstancesIds g1.instances, id ∉ mapInstancesIds g2.instances)
    (hg : g ∈ asgs) :
    (applyTerminate env (calcLoop env st dr drf asgMap).2.1).2.countP
      (terminatesMemberOf g) ≤ 1 := by
  obtain ⟨k, hk⟩ := applyTerminate_trace_take env (calcLoop env st dr drf asgMap).2.1
  rw [hk, List.countP_map]
  have heq : ((calcLoop env st dr drf asgMap).2.1.take k).countP
      ((terminatesMemberOf g) ∘ (fun p => CloudCall.terminateInstance p.2)) =
      ((calcLoop env st dr drf asgMap).2.1.take k).countP
      (fun p => (mapInstancesIds g.instances).contains p.2) := rfl
  rw [heq]
  have hle := (List.take_sublist k (calcLoop env st dr drf asgMap).2.1).countP_le
    (p := fun p => (mapInstancesIds g.instances).contains p.2)
  have hbound := calcLoop_terminate_countP_le_one env st dr drf asgs asgMap g
    hsub hnodup hdisj hg
  omega

/-- Helper: a whole adjust tick terminates at most one member instance of
any fixed group, provided the described groups carry distinct names and
pairwise disjoint member ids. -/
theorem adjust_at_most_one_termination (asgList : List String) (env : AdjustEnv)
    (st : RollerState) (s c dr drf : Bool) (asgs : List Group) (g : Group)
    (hdesc : env.describeGroups asgList = .ok asgs)
    (hnodup : (asgs.map Group.autoScalingGroupName).Nodup)
    (hdisj : ∀ g1 ∈ asgs, ∀ g2 ∈ asgs,
      g1.autoScalingGroupName ≠ g2.autoScalingGroupName →
      ∀ id ∈ mapInstancesIds g1.instances, id ∉ mapInstancesIds g2.instances)
    (hg : g ∈ asgs) :
    (adjust asgList env st s c dr drf).trace.countP (terminatesMemberOf g) ≤ 1 := by
  rw [adjust, hdesc]
  simp only
  cases hp : (populateOriginalDesired s asgs st).1 with
  | some e => simp
  | none =>
    have htr1 : (screenGroups env (populateOriginalDesired s asgs st).2 asgs).2.2.2.countP
        (terminatesMemberOf g) = 0 := by
      apply countP_terminate_zero
      intro call hc id
      obtain ⟨hs2, hrw⟩ := screenGroups_trace_only_remove env
        (populateOriginalDesired s asgs st).2 asgs call hc
      rw [hrw]
      simp
    have htr2 : (calcLoop env (populateOriginalDesired s asgs st).2 dr drf
        (screenGroups env (populateOriginalDesired s asgs st).2 asgs).2.1).2.2.countP
        (terminatesMemberOf g) = 0 :=
      countP_terminate_zero g _ (calcLoop_trace_no_terminate env
        (populateOriginalDesired s asgs st).2 dr drf
        (screenGroups env (populateOriginalDesired s asgs st).2 asgs).2.1)
    have htr3 : ∀ ds, (applyDesired env c
        (screenGroups env (populateOriginalDesired s asgs st).2 asgs).2.1 ds).2.countP
        (terminatesMemberOf g) = 0 :=
      fun ds => countP_terminate_zero g _ (applyDesired_trace_no_terminate env c
        (screenGroups env (populateOriginalDesired s asgs st).2 asgs).2.1 ds)
    have htr4 := applyTerminate_countP_le_one env (populateOriginalDesired s asgs st).2
      dr drf asgs (screenGroups env (populateOriginalDesired s asgs st).2 asgs).2.1 g
      (screenGroups_map_sublist env (populateOriginalDesired s asgs st).2 asgs)
      hnodup hdisj hg
    cases hsc : (screenGroups env (populateOriginalDesired s asgs st).2 asgs).1 with
    | some e =>
      simp only
      rw [htr1]
      omega
    | none =>
      simp only
      by_cases hlen : (screenGroups env
          (populateOriginalDesired s asgs st).2 asgs).2.2.1.length = 0
      · rw [if_pos hlen]
        simp only
        rw [htr1]
        omega
      · rw [if_neg hlen]
        cases had : (applyDesired env c
            (screenGroups env (populateOriginalDesired s asgs st).2 asgs).2.1
            (calcLoop env (populateOriginalDesired s asgs st).2 dr drf
              (screenGroups env (populateOriginalDesired s asgs st).2 asgs).2.1).1).1 with
        | some e =>
          simp only
          rw [List.countP_append, List.countP_append, htr1, htr2, htr3]
          omega
        | none =>
          simp only
          rw [List.countP_append, List.countP_append, List.countP_append,
            htr1, htr2, htr3]
          simpa using htr4

/-- Helper: for a group with outdated instances, the computed adjustment is
an error, a raise of desired to OriginalDesired + 1 (only when desired
still equals OriginalDesired) with no candidate, an unchanged desired with
no candidate, or an unchanged desired with the first outdated instance as
the single candidate. -/
theorem calculateAdjustment_outcomes (asg : Group) (ec2Svc : Ec2Api)
    (hostnameMap : String → String) (rh : Option ReadinessHandler)
    (orig : Int) (dr drf : Bool) (o : Instance) (os news : List Instance)
    (hgi : groupInstances ec2Svc asg = .ok (o :: os, news)) :
    (∃ e, (calculateAdjustment asg ec2Svc hostnameMap rh orig dr drf).1 = .error e) ∨
    (orig = asg.desiredCapacity ∧
      (calculateAdjustment asg ec2Svc hostnameMap rh orig dr drf).1 =
        .ok (orig + 1, "")) ∨
    (calculateAdjustment asg ec2Svc hostnameMap rh orig dr drf).1 =
      .ok (asg.desiredCapacity, "") ∨
    (calculateAdjustment asg ec2Svc hostnameMap rh orig dr drf).1 =
      .ok (asg.desiredCapacity, o.instanceId) := by
  rw [calculateAdjustment, hgi]
  simp only
  by_cases he : orig = asg.desiredCapacity
  · rw [if_pos he]
    exact Or.inr (Or.inl ⟨he, rfl⟩)
  · rw [if_neg he]
    split
    · exact Or.inr (Or.inr (Or.inl rfl))
    · split
      · exact Or.inr (Or.inr (Or.inl rfl))
      · cases hrh : rh with
        | some hdl =>
          simp only
          cases hq : hdl.getUnreadyCount
              ((mapInstancesIds news).map hostnameMap) (mapInstancesIds news) with
          | error e2 => exact Or.inl ⟨_, rfl⟩
          | ok n =>
            simp only
            by_cases hn : 0 < n
            · rw [if_pos hn]
              exact Or.inr (Or.inr (Or.inl rfl))
            · rw [if_neg hn]
              simp only
              cases hpt : hdl.prepareTermination [hostnameMap o.instanceId]
                  [o.instanceId] dr drf with
              | error e3 => exact Or.inl ⟨_, rfl⟩
              | ok u => exact Or.inr (Or.inr (Or.inr rfl))
        | none =>
          simp

/-- C8: for every group with a non-empty old set the per-tick decision is
exactly one of: raise desired to OriginalDesired + 1 with no candidate
(only from desired = OriginalDesired), keep desired with the single first
outdated instance as candidate, keep desired with no candidate, or an
error (skipped, no mutation); and over any whole tick, a fixed group (with
the described groups distinct in name and member ids) has at most one of
its member instances terminated. -/
theorem c8_single_step_per_group :
    (∀ (asg : Group) (ec2Svc : Ec2Api) (hostnameMap : String → String)
       (rh : Option ReadinessHandler) (orig : Int) (dr drf : Bool)
       (o : Instance) (os news : List Instance),
       groupInstances ec2Svc asg = .ok (o :: os, news) →
       (∃ e, (calculateAdjustment asg ec2Svc hostnameMap rh orig dr drf).1 = .error e) ∨
       (orig = asg.desiredCapacity ∧
         (calculateAdjustment asg ec2Svc hostnameMap rh orig dr drf).1 =
           .ok (orig + 1, "")) ∨
       (calculateAdjustment asg ec2Svc hostnameMap rh orig dr drf).1 =
         .ok (asg.desiredCapacity, "") ∨
       (calculateAdjustment asg ec2Svc hostnameMap rh orig dr drf).1 =
         .ok (asg.desiredCapacity, o.instanceId)) ∧
    (∀ (asgList : List String) (env : AdjustEnv) (st : RollerState)
       (s c dr drf : Bool) (asgs : List Group) (g : Group),
       env.describeGroups asgList = .ok asgs →
       (asgs.map Group.autoScalingGroupName).Nodup →
       (∀ g1 ∈ asgs, ∀ g2 ∈ asgs,
         g1.autoScalingGroupName ≠ g2.autoScalingGroupName →
         ∀ id ∈ mapInstancesIds g1.instances, id ∉ mapInstancesIds g2.instances) →
       g ∈ asgs →
       (adjust asgList env st s c dr drf).trace.countP (terminatesMemberOf g) ≤ 1) := by
  exact ⟨fun asg ec2Svc hostnameMap rh orig dr drf o os news hgi =>
      calculateAdjustment_outcomes asg ec2Svc hostnameMap rh orig dr drf o os news hgi,
    fun asgList env st s c dr drf asgs g hdesc hnodup hdisj hg =>
      adjust_at_most_one_termination asgList env st s c dr drf asgs g
        hdesc hnodup hdisj hg⟩

/-- C8 witness: the decision disjunction at the mid-roll group about to
terminate its first outdated instance, and the whole-tick termination bound
at the two-group environment. -/
theorem c8_witness :
    ((∃ e, (calculateAdjustment gMid emptyEc2 (fun id => "host" ++ id) none 2
        true true).1 = .error e) ∨
     (2 = gMid.desiredCapacity ∧
       (calculateAdjustment gMid emptyEc2 (fun id => "host" ++ id) none 2
         true true).1 = .ok (2 + 1, "")) ∨
     (calculateAdjustment gMid emptyEc2 (fun id => "host" ++ id) none 2
       true true).1 = .ok (gMid.desiredCapacity, "") ∨
     (calculateAdjustment gMid emptyEc2 (fun id => "host" ++ id) none 2
       true true).1 = .ok (gMid.desiredCapacity, "i1")) ∧
    (adjust ["g", "bad"] (envFor [gMid, gBad]) stMem2 false false true true).trace.countP
      (terminatesMemberOf gMid) ≤ 1 := by
  constructor
  · exact c8_single_step_per_group.1 gMid emptyEc2 (fun id => "host" ++ id) none 2
      true true (instOf "i1" "Healthy" "old") [instOf "i2" "Healthy" "old"]
      [instOf "i3" "Healthy" "new"] rfl
  · exact c8_single_step_per_group.2 ["g", "bad"] (envFor [gMid, gBad]) stMem2
      false false true true [gMid, gBad] gMid rfl (by decide)
      (by decide) (by simp)

end AsgRoller
